import Mathlib

/-!
Verification of the document indexing and semantic retrieval subsystem of the
studyai repository: a shallow embedding of `src/pdf_processing.py` and
`src/embedding_retrieval.py` into Lean 4, together with theorems settling the
frozen specification claims about those modules.

Python strings are modelled as `List Char`; Python `None`-able values and
possibly-missing dict keys as `Option`; a raised exception of a fallible
external call as `Option` results.  Machine floats produced by the embedding
model are modelled as exact integers: every claim under study concerns
ordering, counting and data-flow behaviour, never float rounding.
-/

/-- A Python `str`, modelled as its character list. -/
abbrev PyStr := List Char

/-- Python whitespace test used by `str.split()` / `str.strip()`. -/
def isPySpace (c : Char) : Bool := c.isWhitespace

/-- Python `str.strip()`: drop leading and trailing whitespace. -/
def pyStrip (s : PyStr) : PyStr :=
  (((s.dropWhile isPySpace).reverse).dropWhile isPySpace).reverse

/-- Worker for `pySplit`; `cur` holds the (reversed) current token. -/
def pySplitAux : List Char → List Char → List PyStr
  | [], cur => if cur.isEmpty then [] else [cur.reverse]
  | c :: cs, cur =>
    if isPySpace c then
      if cur.isEmpty then pySplitAux cs [] else cur.reverse :: pySplitAux cs []
    else pySplitAux cs (c :: cur)

/-- Python `str.split()` (no argument): split on whitespace runs, dropping
empty pieces. -/
def pySplit (s : PyStr) : List PyStr := pySplitAux s []

/-- Python `sep.join(ws)`. -/
def pyJoin (sep : PyStr) : List PyStr → PyStr
  | [] => []
  | [w] => w
  | w :: ws => w ++ sep ++ pyJoin sep ws

/-- Python `str.lower()`. -/
def pyLower (s : PyStr) : PyStr := s.map Char.toLower

/-- Python `s.endswith(suffix)`. -/
def pyEndsWith (s suffix : PyStr) : Bool := List.isSuffixOf suffix s

/-- Decimal rendering of a natural number, as used by Python f-strings. -/
def pyNatStr (n : Nat) : PyStr := Nat.toDigits 10 n

/-! ## `chunk_text` (src/pdf_processing.py lines 156-202)

The Python `while` loop is rendered with explicit fuel: `none` means the loop
has not finished within `fuel` iterations, so a result that is `none` for
every fuel is a non-terminating run.  `start = end - overlap` followed by the
guard `if start <= 0: start = end` is rendered in `Nat`: Python's
`end - overlap <= 0` is exactly `Nat` truncated subtraction hitting `0`. -/

/-- The body of `chunk_text`'s `while start < len(words)` loop. -/
def chunkLoop (words : List PyStr) (chunk_size overlap : Nat) :
    Nat → Nat → List PyStr → Option (List PyStr)
  | 0, _, _ => none
  | fuel + 1, start, chunks =>
    if start < words.length then
      let e := min (start + chunk_size) words.length
      let chunk_words := (words.drop start).take (e - start)
      let ct := pyJoin [' '] chunk_words
      let chunks' := if pyStrip ct ≠ [] then chunks ++ [pyStrip ct] else chunks
      if words.length ≤ e then some chunks'
      else
        let s1 := e - overlap
        let s2 := if s1 = 0 then e else s1
        chunkLoop words chunk_size overlap fuel s2 chunks'
    else some chunks

/-- `chunk_text(text, chunk_size, overlap)` with explicit loop fuel. -/
def chunk_text (text : PyStr) (chunk_size : Nat) (overlap : Nat) (fuel : Nat) :
    Option (List PyStr) :=
  if text = [] then some []
  else
    let words := pySplit text
    if words.length ≤ chunk_size then some [text]
    else chunkLoop words chunk_size overlap fuel 0 []

/-- A concrete 7-word text (used at `chunk_size = 3, overlap = 3` it makes
`chunk_text` diverge; at `overlap < chunk_size` it chunks normally). -/
def sevenWords : PyStr := ('a' :: ' ' :: 'b' :: ' ' :: 'c' :: ' ' :: 'd' ::
  ' ' :: 'e' :: ' ' :: 'f' :: ' ' :: 'g' :: [])

/-! ## PDF extraction and batch processing
(src/pdf_processing.py lines 16-88 and 205-304)

A PDF page is modelled by the outcome of the three PyMuPDF extraction
strategies the code tries in order (`get_text("text")`, the
`extract_text_from_dict` rendering of `get_text("dict")`, and the joined
`get_text("blocks")`); an uploaded file by its name, its byte size and
`Option (List Page)` — `none` when `fitz.open` raises on the bytes.  The
`clean_text` regex pipeline (lines 118-153) is irrelevant to every claim and
is passed as an explicit function parameter `clean`; every theorem below
quantifies over it. -/

/-- Outcome of the three per-page extraction strategies. -/
structure Page where
  textText : PyStr
  dictText : PyStr
  blocksText : PyStr
deriving DecidableEq

/-- A Streamlit uploaded file: name, byte size, and the parsed document
(`none` when the bytes cannot be parsed as a PDF). -/
structure UploadedFile where
  name : PyStr
  size : Nat
  doc : Option (List Page)
deriving DecidableEq

/-- A chunk dictionary.  Keys, possibly absent, are `Option` fields;
`similarity_score` and `rank` are added only on retrieval results. -/
structure ChunkRec where
  filename : Option PyStr := none
  chunk_index : Option Nat := none
  text : Option PyStr := none
  file_index : Option Nat := none
  original_text_length : Option Nat := none
  similarity_score : Option ℤ := none
  rank : Option Nat := none
deriving DecidableEq

/-- A per-file entry of `processing_results` in `process_uploaded_pdfs`. -/
structure FileResult where
  filename : PyStr
  status : PyStr
  reason : Option PyStr := none
  chunks_created : Option Nat := none
  text_length : Option Nat := none
deriving DecidableEq

def pdfExt : PyStr := ".pdf".data
def skippedS : PyStr := "skipped".data
def failedS : PyStr := "failed".data
def successS : PyStr := "success".data
def notPdfReason : PyStr := "Not a PDF file".data
def emptyFileReason : PyStr := "Empty file".data
def noTextReason : PyStr := "No text content found".data
def noChunksReason : PyStr := "Could not create text chunks".data

/-- The fixed sentinel returned when no page yields any text
(src/pdf_processing.py line 80). -/
def sentinelMsg : PyStr :=
  ("No text content could be extracted from this PDF. " ++
   "This might be a scanned document or image-based PDF " ++
   "that requires OCR processing.").data

def newline2 : PyStr := ('\n' :: '\n' :: [])

/-- Per-page strategy fallback: method 1, then method 2 if the result strips
to empty, then method 3 (src/pdf_processing.py lines 48-61). -/
def pageExtract (p : Page) : PyStr :=
  if pyStrip p.textText = [] then
    (if pyStrip p.dictText = [] then p.blocksText else p.dictText)
  else p.textText

/-- The `text_content` list accumulated over pages: a page contributes its
cleaned text when the raw strategy text strips non-empty and the cleaned
text is non-empty (src/pdf_processing.py lines 65-70). -/
def pageContents (clean : PyStr → PyStr) (pages : List Page) : List PyStr :=
  pages.filterMap fun p =>
    if pyStrip (pageExtract p) = [] then none
    else if clean (pageExtract p) = [] then none
    else some (clean (pageExtract p))

/-- `extract_text_from_pdf` (src/pdf_processing.py lines 16-88): empty bytes
give `""`; an unparseable PDF raises, is caught, and gives `""`; otherwise
pages are joined by a blank line, and a whitespace-only total yields the
sentinel message. -/
def extract_text_from_pdf (clean : PyStr → PyStr) (f : UploadedFile) :
    PyStr :=
  if f.size = 0 then []
  else
    match f.doc with
    | none => []
    | some pages =>
      if pyStrip (pyJoin newline2 (pageContents clean pages)) = [] then
        sentinelMsg
      else pyJoin newline2 (pageContents clean pages)

/-- `chunk_text(text)` at the default `chunk_size = 500, overlap = 100`.
Fuel `W + 1` always suffices here: with `overlap < chunk_size` the loop
advances by at least one word per iteration (`chunkLoop_count`), so the
`none` branch of the fuelled loop is unreachable. -/
def chunk_text_default (text : PyStr) : List PyStr :=
  (chunk_text text 500 100 ((pySplit text).length + 1)).getD []

/-- The chunk dictionary built for each chunk of a successfully processed
file (src/pdf_processing.py lines 272-281). -/
def mkChunkRec (fname : PyStr) (idx : Nat) (txt : PyStr) (fidx : Nat)
    (origLen : Nat) : ChunkRec :=
  { filename := some fname, chunk_index := some idx, text := some txt,
    file_index := some fidx, original_text_length := some origLen }

/-- Pair each element with its position, starting at `i`
(Python `enumerate`). -/
def withIdx {α : Type} : Nat → List α → List (Nat × α)
  | _, [] => []
  | i, a :: as => (i, a) :: withIdx (i + 1) as

/-- Processing of one uploaded file inside the `process_uploaded_pdfs` loop:
its produced chunk dictionaries and its `processing_results` entry. -/
def processFile (clean : PyStr → PyStr) (fidx : Nat) (f : UploadedFile) :
    List ChunkRec × FileResult :=
  if pyEndsWith (pyLower f.name) pdfExt = false then
    ([], { filename := f.name, status := skippedS,
           reason := some notPdfReason })
  else if f.size = 0 then
    ([], { filename := f.name, status := failedS,
           reason := some emptyFileReason })
  else if extract_text_from_pdf clean f = [] ∨
      pyStrip (extract_text_from_pdf clean f) = [] then
    ([], { filename := f.name, status := failedS,
           reason := some noTextReason })
  else if chunk_text_default (extract_text_from_pdf clean f) = [] then
    ([], { filename := f.name, status := failedS,
           reason := some noChunksReason })
  else
    ((withIdx 0 (chunk_text_default (extract_text_from_pdf clean f))).map
       (fun p => mkChunkRec f.name p.1 p.2 fidx
         (extract_text_from_pdf clean f).length),
     { filename := f.name, status := successS,
       chunks_created :=
         some (chunk_text_default (extract_text_from_pdf clean f)).length,
       text_length := some (extract_text_from_pdf clean f).length })

/-- The `process_uploaded_pdfs` loop over files, carrying the enumeration
index: accumulates `all_chunks` and `processing_results`. -/
def processAux (clean : PyStr → PyStr) :
    Nat → List UploadedFile → List ChunkRec × List FileResult
  | _, [] => ([], [])
  | i, f :: fs =>
    ((processFile clean i f).1 ++ (processAux clean (i + 1) fs).1,
     (processFile clean i f).2 :: (processAux clean (i + 1) fs).2)

/-- `process_uploaded_pdfs` (src/pdf_processing.py lines 205-304).  Note the
Python function returns only `all_chunks`; `processing_results` is logged
and discarded. -/
def process_uploaded_pdfs (clean : PyStr → PyStr)
    (files : List UploadedFile) : List ChunkRec :=
  (processAux clean 0 files).1

/-! ## Embedding and retrieval (src/embedding_retrieval.py)

The SentenceTransformer model is external: it is passed as an `encode`
function whose `none` result models a raised exception.  Its float outputs
are modelled as exact rationals.  A FAISS `IndexFlatL2` is the list of its
stored vectors; `search` computes squared-L2 distances, sorts them
ascending (stably, matching FAISS determinism) and takes the first `k`. -/

abbrev Vec := List ℤ

/-- Squared L2 distance between two vectors. -/
def sqDist (q v : Vec) : ℤ :=
  ((q.zip v).map (fun p => (p.1 - p.2) * (p.1 - p.2))).sum

/-- The `(distance, row-id)` pairs of a query against stored vectors,
starting from row `i`. -/
def distPairs (q : Vec) : Nat → List Vec → List (ℤ × Nat)
  | _, [] => []
  | i, v :: vs => (sqDist q v, i) :: distPairs q (i + 1) vs

/-- Comparison by distance used to order search results. -/
def pairLe (a b : ℤ × Nat) : Prop := a.1 ≤ b.1

instance : DecidableRel pairLe :=
  fun a b => inferInstanceAs (Decidable (a.1 ≤ b.1))

instance : IsTotal (ℤ × Nat) pairLe := ⟨fun a b => le_total a.1 b.1⟩

instance : IsTrans (ℤ × Nat) pairLe := ⟨fun _ _ _ h1 h2 => le_trans h1 h2⟩

/-- A FAISS `IndexFlatL2` over the vectors added to it, in insertion
order. -/
structure FaissIndex where
  vectors : List Vec
deriving DecidableEq

/-- `index.search(query, k)`: the `k` nearest stored rows by squared L2
distance, ascending. -/
def FaissIndex.search (idx : FaissIndex) (q : Vec) (k : Nat) :
    List (ℤ × Nat) :=
  (List.insertionSort pairLe (distPairs q 0 idx.vectors)).take k

/-- The mutable state of an `EmbeddingRetriever`
(src/embedding_retrieval.py lines 29-33). -/
structure Retriever where
  model_name : PyStr
  chunks : List ChunkRec
  index : Option FaissIndex
  embeddings : Option (List Vec)
deriving DecidableEq

/-- `create_embeddings` (src/embedding_retrieval.py lines 47-82).  Returns
the post-call state together with `some` embeddings on success, `none` when
the text lookup or the model's `encode` raises.  Note the source assigns
`self.chunks = chunks` before encoding, so a failure still leaves the new
chunk list in place. -/
def create_embeddings (r : Retriever) (chunks : List ChunkRec)
    (encode : List PyStr → Option (List Vec)) :
    Retriever × Option (List Vec) :=
  if chunks = [] then (r, some [])
  else
    match chunks.mapM (fun c => c.text) with
    | none => ({ r with chunks := chunks }, none)
    | some texts =>
      match encode texts with
      | none => ({ r with chunks := chunks }, none)
      | some embs =>
        ({ r with chunks := chunks, embeddings := some embs }, some embs)

/-- `build_faiss_index` (src/embedding_retrieval.py lines 84-112): `None`
falls back to the stored embeddings; `None`-or-empty embeddings log an
error and return leaving the state untouched; otherwise the index is
replaced by a flat L2 index over exactly these vectors. -/
def build_faiss_index (r : Retriever) (embeddings : Option (List Vec)) :
    Retriever :=
  match embeddings.orElse (fun _ => r.embeddings) with
  | none => r
  | some embs =>
    if embs.length = 0 then r
    else { r with index := some { vectors := embs } }

/-- The ingestion sequence of `initialize_retrieval_system`
(src/embedding_retrieval.py lines 204-208): `create_embeddings` followed by
`build_faiss_index` on its result; `false` when embedding raised (the
exception propagates and the index build never runs). -/
def ingest (r : Retriever) (chunks : List ChunkRec)
    (encode : List PyStr → Option (List Vec)) : Retriever × Bool :=
  match create_embeddings r chunks encode with
  | (r1, none) => (r1, false)
  | (r1, some embs) => (build_faiss_index r1 (some embs), true)

/-- `initialize_retrieval_system` (src/embedding_retrieval.py lines
183-211): a fresh retriever; empty chunk input returns it still Empty;
otherwise the ingest sequence runs on it. -/
def init_retrieval_system (model_name : PyStr) (chunks : List ChunkRec)
    (encode : List PyStr → Option (List Vec)) : Retriever × Bool :=
  if chunks = [] then
    ({ model_name := model_name, chunks := [], index := none,
       embeddings := none }, true)
  else
    ingest { model_name := model_name, chunks := [], index := none,
             embeddings := none } chunks encode

/-- The result-building loop of `retrieve_relevant_chunks`
(src/embedding_retrieval.py lines 144-150): `i` is the `enumerate` counter
(it advances over every search hit, also skipped ones); hits whose row id
is out of range for the chunk list are dropped; each kept hit is a copy of
the stored chunk with `similarity_score` and `rank` added. -/
def buildResults (chunks : List ChunkRec) :
    Nat → List (ℤ × Nat) → List ChunkRec
  | _, [] => []
  | i, (dist, j) :: rest =>
    match chunks[j]? with
    | some c =>
      { c with similarity_score := some dist, rank := some (i + 1) } ::
        buildResults chunks (i + 1) rest
    | none => buildResults chunks (i + 1) rest

/-- `retrieve_relevant_chunks` (src/embedding_retrieval.py lines 114-157).
The post-call state is returned alongside the results (the method never
assigns to `self`, and copies each chunk before annotating it).  A `none`
from `encode` models an exception, caught and turned into `[]`. -/
def retrieve_relevant_chunks (r : Retriever) (encode : PyStr → Option Vec)
    (query : PyStr) (top_k : Nat) : Retriever × List ChunkRec :=
  if pyStrip query = [] then (r, [])
  else if r.index = none ∨ r.chunks.length = 0 then (r, [])
  else
    match r.index with
    | none => (r, [])
    | some idx =>
      match encode query with
      | none => (r, [])
      | some qv =>
        (r, buildResults r.chunks 0
          (idx.search qv (min top_k r.chunks.length)))

/-- A source-information entry produced by `get_chunk_sources`
(src/embedding_retrieval.py lines 252-256); the Python dict key `"section"`
is the quoted field `«section»`. -/
structure SourceInfo where
  filename : PyStr
  «section» : PyStr
  preview : PyStr
deriving DecidableEq

/-- `get_chunk_sources` (src/embedding_retrieval.py lines 239-259): one
source entry per chunk record, with `dict.get` defaults `"Unknown"`, index
`0` and `""`, and a preview truncated to 200 characters plus `"..."`. -/
def get_chunk_sources (chunks : List ChunkRec) : List SourceInfo :=
  chunks.map fun c =>
    { filename := c.filename.getD ("Unknown".data),
      «section» := ("Section ".data) ++ pyNatStr (c.chunk_index.getD 0 + 1),
      preview :=
        if 200 < (c.text.getD []).length then
          (c.text.getD []).take 200 ++ ("...".data)
        else c.text.getD [] }

/-! ### Concrete values used by witnesses and counterexamples -/

def chunkA : ChunkRec := mkChunkRec ("a.pdf".data) 0 ("alpha".data) 0 10
def chunkB : ChunkRec := mkChunkRec ("a.pdf".data) 1 ("beta".data) 0 10
def chunkC : ChunkRec := mkChunkRec ("b.pdf".data) 0 ("gamma".data) 0 5

/-- A Ready retriever: two stored chunks, index aligned over two vectors. -/
def readyR : Retriever :=
  { model_name := "all-MiniLM-L6-v2".data,
    chunks := [chunkA, chunkB],
    index := some { vectors := [[1], [2]] },
    embeddings := some [[1], [2]] }

/-- A freshly constructed retriever in the Empty state. -/
def emptyRetriever : Retriever :=
  { model_name := "all-MiniLM-L6-v2".data, chunks := [], index := none,
    embeddings := none }

/-- A retriever already holding a one-vector index but no stored
embeddings. -/
def rIdx1 : Retriever :=
  { model_name := "all-MiniLM-L6-v2".data, chunks := [chunkA],
    index := some { vectors := [[1]] }, embeddings := none }

/-- A batch-encode that always raises. -/
def failEncode : List PyStr → Option (List Vec) := fun _ => none

/-- A query encoder defined on the query `"hi"`. -/
def encodeHi : PyStr → Option Vec :=
  fun q => if q = "hi".data then some [0] else none

/-- A chunk record whose dict is missing every key. -/
def noKeysRec : ChunkRec := {}

/-- A 201-character text. -/
def longText : PyStr := List.replicate 201 'x'

/-- A chunk record with a 201-character text. -/
def longRec : ChunkRec := { text := some longText }

/-- The result returned by `retrieve_relevant_chunks readyR encodeHi "hi" 1`:
`chunkA` annotated with its distance and rank. -/
def resHi : ChunkRec :=
  { chunkA with similarity_score := some 1, rank := some 1 }

/-! ## Lemmas and claim theorems -/

/-! ### Facts about the string primitives -/

/-- A character that is not whitespace survives `dropWhile isPySpace`. -/
lemma mem_dropWhile_of_neg {c : Char} :
    ∀ {s : List Char}, c ∈ s → isPySpace c = false →
      c ∈ s.dropWhile isPySpace := by
  intro s
  induction s with
  | nil => intro h _; cases h
  | cons a t ih =>
    intro hmem hc
    cases ha : isPySpace a with
    | true =>
      have hct : c ∈ t := by
        rcases List.mem_cons.mp hmem with h | h
        · subst h; rw [ha] at hc; cases hc
        · exact h
      simpa [List.dropWhile, ha] using ih hct hc
    | false => simpa [List.dropWhile, ha] using hmem

/-- `strip` of a string holding a non-whitespace character is non-empty. -/
lemma pyStrip_ne_nil {c : Char} {s : PyStr} (hmem : c ∈ s)
    (hc : isPySpace c = false) : pyStrip s ≠ [] := by
  unfold pyStrip
  have h1 : c ∈ s.dropWhile isPySpace := mem_dropWhile_of_neg hmem hc
  have h2 : c ∈ (s.dropWhile isPySpace).reverse := List.mem_reverse.mpr h1
  have h3 : c ∈ ((s.dropWhile isPySpace).reverse).dropWhile isPySpace :=
    mem_dropWhile_of_neg h2 hc
  intro hnil
  rw [List.reverse_eq_nil_iff] at hnil
  rw [hnil] at h3
  cases h3

/-- Tokens produced by `pySplitAux` are non-empty and whitespace-free,
provided the accumulated current token is whitespace-free. -/
lemma pySplitAux_tokens :
    ∀ (s : List Char) (cur : List Char),
      (∀ c ∈ cur, isPySpace c = false) →
      ∀ w ∈ pySplitAux s cur, w ≠ [] ∧ ∀ c ∈ w, isPySpace c = false := by
  intro s
  induction s with
  | nil =>
    intro cur hcur w hw
    simp only [pySplitAux] at hw
    by_cases hemp : cur.isEmpty
    · simp [hemp] at hw
    · rw [if_neg hemp] at hw
      rcases List.mem_cons.mp hw with h | h
      · subst h
        refine ⟨fun hn => ?_, fun c hc => hcur c (List.mem_reverse.mp hc)⟩
        rw [List.reverse_eq_nil_iff] at hn
        rw [hn] at hemp
        exact hemp rfl
      · cases h
  | cons a t ih =>
    intro cur hcur w hw
    simp only [pySplitAux] at hw
    cases ha : isPySpace a with
    | true =>
      rw [if_pos ha] at hw
      by_cases hemp : cur.isEmpty
      · rw [if_pos hemp] at hw
        exact ih [] (fun c hc => by cases hc) w hw
      · rw [if_neg hemp] at hw
        rcases List.mem_cons.mp hw with h | h
        · subst h
          refine ⟨fun hn => ?_, fun c hc => hcur c (List.mem_reverse.mp hc)⟩
          rw [List.reverse_eq_nil_iff] at hn
          rw [hn] at hemp
          exact hemp rfl
        · exact ih [] (fun c hc => by cases hc) w h
    | false =>
      rw [if_neg (by simp [ha])] at hw
      refine ih (a :: cur) ?_ w hw
      intro c hc
      rcases List.mem_cons.mp hc with h | h
      · subst h; exact ha
      · exact hcur c h

/-- Tokens of Python `str.split()` are non-empty and whitespace-free. -/
lemma pySplit_tokens (s : PyStr) :
    ∀ w ∈ pySplit s, w ≠ [] ∧ ∀ c ∈ w, isPySpace c = false :=
  pySplitAux_tokens s [] (fun _ hc => by cases hc)

/-- Every character of the first word appears in the joined string. -/
lemma mem_pyJoin_head {c : Char} {sep w : PyStr} {rest : List PyStr}
    (hc : c ∈ w) : c ∈ pyJoin sep (w :: rest) := by
  cases rest with
  | nil => simpa [pyJoin] using hc
  | cons r rs =>
    show c ∈ w ++ sep ++ pyJoin sep (r :: rs)
    exact List.mem_append_left _ (List.mem_append_left _ hc)

/-- The stripped join of a non-trivial window of split tokens is non-empty,
so the loop body of `chunk_text` appends exactly one chunk per iteration. -/
lemma chunk_strip_ne_nil (words : List PyStr)
    (hw : ∀ w ∈ words, w ≠ [] ∧ ∀ c ∈ w, isPySpace c = false)
    (start e : Nat) (h1 : start < e) (h2 : e ≤ words.length) :
    pyStrip (pyJoin [' '] ((words.drop start).take (e - start))) ≠ [] := by
  have hlen : 0 < ((words.drop start).take (e - start)).length := by
    rw [List.length_take, List.length_drop]; omega
  obtain ⟨w, rest, hwr⟩ :=
    List.exists_cons_of_ne_nil (List.length_pos.mp hlen)
  have hwmem : w ∈ words := by
    have hsl : w ∈ (words.drop start).take (e - start) := by
      rw [hwr]; exact List.mem_cons_self _ _
    exact (List.drop_sublist _ _).mem ((List.take_sublist _ _).mem hsl)
  obtain ⟨hwne, hwch⟩ := hw w hwmem
  obtain ⟨c, w', hcw⟩ := List.exists_cons_of_ne_nil hwne
  have hc : isPySpace c = false :=
    hwch c (by rw [hcw]; exact List.mem_cons_self _ _)
  have hcj : c ∈ pyJoin [' '] ((words.drop start).take (e - start)) := by
    rw [hwr]
    exact mem_pyJoin_head (by rw [hcw]; exact List.mem_cons_self _ _)
  exact pyStrip_ne_nil hcj hc

/-- Counting lemma for the `chunk_text` loop when `overlap < chunk_size`:
from position `start` the loop terminates within `words.length - start`
iterations and appends `(words.length - start - overlap - 1) / (chunk_size -
overlap) + 1` further chunks. -/
lemma chunkLoop_count (words : List PyStr) (S O : Nat) (hSO : O < S)
    (hw : ∀ w ∈ words, w ≠ [] ∧ ∀ c ∈ w, isPySpace c = false) :
    ∀ fuel start chunks, start < words.length →
      words.length - start ≤ fuel →
      ∃ l, chunkLoop words S O fuel start chunks = some l ∧
        l.length = chunks.length +
          ((words.length - start - O - 1) / (S - O) + 1) := by
  intro fuel
  induction fuel with
  | zero => intro start chunks hstart hfuel; omega
  | succ f ih =>
    intro start chunks hstart hfuel
    have he1 : start < min (start + S) words.length := by omega
    have he2 : min (start + S) words.length ≤ words.length := by omega
    have happ := chunk_strip_ne_nil words hw start
      (min (start + S) words.length) he1 he2
    rw [chunkLoop]
    rw [if_pos hstart]
    simp only [if_pos happ]
    by_cases hend : words.length ≤ min (start + S) words.length
    · rw [if_pos hend]
      refine ⟨_, rfl, ?_⟩
      rw [List.length_append]
      have : (words.length - start - O - 1) / (S - O) = 0 :=
        Nat.div_eq_of_lt (by omega)
      simp [this]
    · rw [if_neg hend]
      have hemin : min (start + S) words.length = start + S := by omega
      have hs1 : min (start + S) words.length - O ≠ 0 := by omega
      rw [if_neg hs1]
      have hstart' : min (start + S) words.length - O < words.length := by
        omega
      have hfuel' :
          words.length - (min (start + S) words.length - O) ≤ f := by omega
      obtain ⟨l, hl, hlen⟩ := ih (min (start + S) words.length - O)
        (chunks ++ [pyStrip (pyJoin [' '] ((words.drop start).take
          (min (start + S) words.length - start)))]) hstart' hfuel'
      refine ⟨l, hl, ?_⟩
      rw [hlen, List.length_append]
      have hx : words.length - start - O - 1 =
          (words.length - (min (start + S) words.length - O) - O - 1)
            + (S - O) := by omega
      rw [hx, Nat.add_div_right _ (by omega : 0 < S - O)]
      simp only [List.length_cons, List.length_nil]
      omega

/-- Claim C5: for non-empty `text` with `W` words and `O < S`, `chunk_text`
returns the text itself as a single chunk when `W ≤ S`, and exactly
`ceil((W - O) / (S - O))` chunks when `W > S` (the ceiling is written in
natural-number form `(W - O + (S - O) - 1) / (S - O)`). -/
theorem C5_chunk_count (text : PyStr) (S O : Nat) (hSO : O < S)
    (htext : text ≠ []) (fuel : Nat)
    (hfuel : (pySplit text).length ≤ fuel) :
    ((pySplit text).length ≤ S → chunk_text text S O fuel = some [text]) ∧
    (S < (pySplit text).length →
      ∃ l, chunk_text text S O fuel = some l ∧
        l.length =
          ((pySplit text).length - O + (S - O) - 1) / (S - O)) := by
  constructor
  · intro hWS
    unfold chunk_text
    rw [if_neg htext, if_pos hWS]
  · intro hWS
    unfold chunk_text
    rw [if_neg htext, if_neg (by omega)]
    obtain ⟨l, hl, hlen⟩ := chunkLoop_count (pySplit text) S O hSO
      (pySplit_tokens text) fuel 0 [] (by omega) (by omega)
    refine ⟨l, hl, ?_⟩
    rw [hlen]
    have hx : (pySplit text).length - O + (S - O) - 1 =
        ((pySplit text).length - 0 - O - 1) + (S - O) := by omega
    rw [hx, Nat.add_div_right _ (by omega : 0 < S - O)]
    simp

/-- Concrete instance of `C5_chunk_count`: the 7-word text with
`chunk_size = 3`, `overlap = 1` yields `ceil(6 / 2) = 3` chunks. -/
theorem C5_chunk_count_witness :
    3 < (pySplit sevenWords).length ∧
    ∃ l, chunk_text sevenWords 3 1 7 = some l ∧
      l.length = ((pySplit sevenWords).length - 1 + (3 - 1) - 1) / (3 - 1) :=
  ⟨by decide,
   (C5_chunk_count sevenWords 3 1 (by decide) (by decide) 7
      (by decide)).2 (by decide)⟩

lemma length_withIdx {α : Type} : ∀ (l : List α) (i : Nat),
    (withIdx i l).length = l.length := by
  intro l
  induction l with
  | nil => intro i; rfl
  | cons a as ih => intro i; simp [withIdx, ih (i + 1)]

/-- `processAux` is an independent per-file map: the chunk list is the
concatenation of each file's own chunks and the result list has exactly one
entry per file, each computed from that file alone. -/
lemma processAux_eq (clean : PyStr → PyStr) :
    ∀ (files : List UploadedFile) (i : Nat),
      processAux clean i files =
        (((withIdx i files).map
            (fun p => (processFile clean p.1 p.2).1)).flatten,
         (withIdx i files).map (fun p => (processFile clean p.1 p.2).2)) := by
  intro files
  induction files with
  | nil => intro i; rfl
  | cons f fs ih =>
    intro i
    simp only [processAux, withIdx, List.map_cons, List.flatten_cons,
      ih (i + 1)]

/-- An identity stand-in for the `clean_text` parameter, used at concrete
inputs where cleaning is never reached. -/
def cleanId : PyStr → PyStr := fun t => t

/-- A non-PDF upload. -/
def txtFile : UploadedFile :=
  { name := "notes.txt".data, size := 5, doc := none }

/-- The page of `goodPdf`. -/
def helloPage : Page :=
  { textText := "hello world".data, dictText := [], blocksText := [] }

/-- A parseable one-page PDF whose page has extractable text. -/
def goodPdf : UploadedFile :=
  { name := "doc.pdf".data, size := 10, doc := some [helloPage] }

/-- A zero-byte PDF upload. -/
def emptyPdf : UploadedFile :=
  { name := "e.pdf".data, size := 0, doc := none }

/-- A page on which all three extraction strategies yield empty text. -/
def blankPage : Page :=
  { textText := [], dictText := [], blocksText := [] }

/-- A parseable one-page PDF with no extractable text on its only page
(a scanned/image-based PDF). -/
def scanFile : UploadedFile :=
  { name := "scan.pdf".data, size := 7, doc := some [blankPage] }

def demoFiles : List UploadedFile := [txtFile, goodPdf, emptyPdf]

/-- Claim C3, as stated, is false: `process_uploaded_pdfs` returns only the
combined chunk list, so for a batch consisting of one non-PDF file the
returned value is empty and carries no per-file status entry at all (the
claimed `"skipped"` entry for `notes.txt` is nowhere in the return value). -/
theorem C3_counterexample :
    process_uploaded_pdfs cleanId [txtFile] = [] ∧
    ¬ ∃ e ∈ process_uploaded_pdfs cleanId [txtFile],
        e.filename = some ("notes.txt".data) := by
  constructor
  · rfl
  · intro ⟨e, he, _⟩
    have : process_uploaded_pdfs cleanId [txtFile] = [] := rfl
    rw [this] at he
    cases he

/-- Claim C3 as amended: `process_uploaded_pdfs` computes (and logs, but does
not return) one `processing_results` entry per input file — non-PDF files
`"skipped"`, zero-byte files `"failed"` with reason `"Empty file"`,
successful files `"success"` with their chunk count — never raises for a bad
file, and a skipped or failed file does not prevent chunks being produced
for the remaining files: the returned chunk list is the concatenation of
per-file chunk lists, each depending on its own file only. -/
theorem C3_per_file_statuses (clean : PyStr → PyStr)
    (files : List UploadedFile) :
    ((processAux clean 0 files).2).length = files.length ∧
    (processAux clean 0 files).2 =
      (withIdx 0 files).map (fun p => (processFile clean p.1 p.2).2) ∧
    process_uploaded_pdfs clean files =
      ((withIdx 0 files).map
        (fun p => (processFile clean p.1 p.2).1)).flatten ∧
    (∀ i f, pyEndsWith (pyLower f.name) pdfExt = false →
      (processFile clean i f).2.status = skippedS ∧
      (processFile clean i f).2.reason = some notPdfReason) ∧
    (∀ i f, pyEndsWith (pyLower f.name) pdfExt = true → f.size = 0 →
      (processFile clean i f).2.status = failedS ∧
      (processFile clean i f).2.reason = some emptyFileReason) ∧
    (∀ i f, (processFile clean i f).2.status = successS →
      (processFile clean i f).2.chunks_created =
        some ((processFile clean i f).1).length) := by
  refine ⟨?_, ?_, ?_, ?_, ?_, ?_⟩
  · rw [processAux_eq]
    simp [length_withIdx]
  · rw [processAux_eq]
  · unfold process_uploaded_pdfs
    rw [processAux_eq]
  · intro i f hf
    unfold processFile
    rw [if_pos hf]
    exact ⟨rfl, rfl⟩
  · intro i f hf hsz
    unfold processFile
    rw [if_neg (by simp [hf]), if_pos hsz]
    exact ⟨rfl, rfl⟩
  · intro i f hf
    unfold processFile at hf ⊢
    by_cases h1 : pyEndsWith (pyLower f.name) pdfExt = false
    · rw [if_pos h1] at hf ⊢
      exact absurd hf (by decide : skippedS ≠ successS)
    · rw [if_neg h1] at hf ⊢
      by_cases h2 : f.size = 0
      · rw [if_pos h2] at hf ⊢
        exact absurd hf (by decide : failedS ≠ successS)
      · rw [if_neg h2] at hf ⊢
        by_cases h3 : extract_text_from_pdf clean f = [] ∨
            pyStrip (extract_text_from_pdf clean f) = []
        · rw [if_pos h3] at hf ⊢
          exact absurd hf (by decide : failedS ≠ successS)
        · rw [if_neg h3] at hf ⊢
          by_cases h4 : chunk_text_default (extract_text_from_pdf clean f) = []
          · rw [if_pos h4] at hf ⊢
            exact absurd hf (by decide : failedS ≠ successS)
          · rw [if_neg h4] at hf ⊢
            simp [length_withIdx]

/-- Concrete instance of `C3_per_file_statuses` on a 3-file batch: one
entry per file; the non-PDF file is skipped and the zero-byte file fails
with "Empty file". -/
theorem C3_per_file_statuses_witness :
    ((processAux cleanId 0 demoFiles).2).length = 3 ∧
    (processFile cleanId 0 txtFile).2.status = skippedS ∧
    (processFile cleanId 2 emptyPdf).2.status = failedS ∧
    (processFile cleanId 2 emptyPdf).2.reason = some emptyFileReason :=
  ⟨(C3_per_file_statuses cleanId demoFiles).1,
   ((C3_per_file_statuses cleanId demoFiles).2.2.2.1 0 txtFile
      (by decide)).1,
   ((C3_per_file_statuses cleanId demoFiles).2.2.2.2.1 2 emptyPdf
      (by decide) (by decide)).1,
   ((C3_per_file_statuses cleanId demoFiles).2.2.2.2.1 2 emptyPdf
      (by decide) (by decide)).2⟩

/-- Claim C2: the extractor half is true and the processor half is false of
the code.  When every page of a parseable, non-empty PDF yields empty text
after the three strategies (or cleans to empty), `extract_text_from_pdf`
returns the fixed non-empty sentinel message; but precisely because the
sentinel is non-empty, the `if not text` check in `process_uploaded_pdfs`
does not fire, and the file is marked `"success"` with the sentinel chunked
— not `"failed"` with reason "No text content found". -/
theorem C2_scanned_pdf (clean : PyStr → PyStr) (f : UploadedFile)
    (pages : List Page) (i : Nat)
    (hsize : f.size ≠ 0) (hdoc : f.doc = some pages)
    (hname : pyEndsWith (pyLower f.name) pdfExt = true)
    (hempty : ∀ p ∈ pages,
      pyStrip (pageExtract p) = [] ∨ clean (pageExtract p) = []) :
    extract_text_from_pdf clean f = sentinelMsg ∧ sentinelMsg ≠ [] ∧
    (processFile clean i f).2.status = successS ∧
    (processFile clean i f).2.reason = none ∧
    (processFile clean i f).2.status ≠ failedS := by
  have hpc : pageContents clean pages = [] := by
    unfold pageContents
    rw [List.filterMap_eq_nil_iff]
    intro p hp
    rcases hempty p hp with h | h
    · simp [h]
    · by_cases hstrip : pyStrip (pageExtract p) = []
      · simp [hstrip]
      · simp [hstrip, h]
  have hextract : extract_text_from_pdf clean f = sentinelMsg := by
    unfold extract_text_from_pdf
    rw [if_neg hsize, hdoc]
    show (if pyStrip (pyJoin newline2 (pageContents clean pages)) = [] then
        sentinelMsg else pyJoin newline2 (pageContents clean pages)) =
      sentinelMsg
    rw [hpc]
    rfl
  refine ⟨hextract, by decide, ?_⟩
  unfold processFile
  rw [hextract]
  rw [if_neg (by simp [hname]), if_neg hsize, if_neg (by decide),
    if_neg (by decide)]
  exact ⟨rfl, rfl, (by decide : successS ≠ failedS)⟩

/-- Concrete instance of `C2_scanned_pdf`: a one-page scanned PDF is
reported as a success, the sentinel chunked into its corpus. -/
theorem C2_scanned_pdf_witness :
    extract_text_from_pdf cleanId scanFile = sentinelMsg ∧
    sentinelMsg ≠ [] ∧
    (processFile cleanId 0 scanFile).2.status = successS ∧
    (processFile cleanId 0 scanFile).2.reason = none ∧
    (processFile cleanId 0 scanFile).2.status ≠ failedS :=
  C2_scanned_pdf cleanId scanFile
    [{ textText := [], dictText := [], blocksText := [] }] 0
    (by decide) rfl (by decide) (by decide)

/-- Once `chunk_text sevenWords 3 3` reaches `start = 3`, every further
iteration recomputes `start = 6 - 3 = 3` and the positivity guard does not
fire, so the loop never finishes, whatever fuel remains. -/
theorem chunkLoop_stuck_at_three :
    ∀ fuel chunks, chunkLoop (pySplit sevenWords) 3 3 fuel 3 chunks = none := by
  intro fuel
  induction fuel with
  | zero => intro chunks; rfl
  | succ f ih =>
    intro chunks
    show chunkLoop (pySplit sevenWords) 3 3 f 3
      (chunks ++ [pyStrip (pyJoin [' ']
        (((pySplit sevenWords).drop 3).take (min (3 + 3) 7 - 3)))]) = none
    exact ih _

/-- Claim C4: false of the code.  With `chunk_size = 3` and `overlap = 3` on a
7-word text, `chunk_text` never terminates: after the first window the loop is
stuck at `start = 3`, so it returns no result for any amount of fuel.  The
claimed forced forward progress for `overlap ≥ chunk_size` only happens when
`end - overlap ≤ 0`, which stops being true once `end > overlap`. -/
theorem C4_chunk_text_diverges :
    ∀ fuel, chunk_text sevenWords 3 3 fuel = none := by
  intro fuel
  cases fuel with
  | zero => rfl
  | succ f =>
    show chunkLoop (pySplit sevenWords) 3 3 f 3
      ([] ++ [pyStrip (pyJoin [' ']
        (((pySplit sevenWords).drop 0).take (min (0 + 3) 7 - 0)))]) = none
    exact chunkLoop_stuck_at_three f _

/-- On an embedding failure, `create_embeddings` has already replaced the
stored chunk list (the source assigns `self.chunks = chunks` before calling
`encode`), while the index and embeddings fields are untouched. -/
lemma create_embeddings_fail (r : Retriever) (chunks : List ChunkRec)
    (encode : List PyStr → Option (List Vec))
    (hfail : (create_embeddings r chunks encode).2 = none) :
    (create_embeddings r chunks encode).1 = { r with chunks := chunks } ∧
    chunks ≠ [] := by
  unfold create_embeddings at hfail ⊢
  by_cases hc : chunks = []
  · rw [if_pos hc] at hfail
    simp at hfail
  · rw [if_neg hc] at hfail ⊢
    refine ⟨?_, hc⟩
    cases hm : List.mapM (fun c => c.text) chunks with
    | none => simp only [hm]
    | some texts =>
      simp only [hm] at hfail ⊢
      cases he : encode texts with
      | none => simp only [he]
      | some embs => simp only [he] at hfail; cases hfail

/-- Claim C1, as stated, is false of the code: re-ingesting `[chunkC]` into
the Ready retriever `readyR` with a failing embed leaves the old two-row
index in place but replaces the stored chunk list with the single new
chunk, so a reader now observes new chunks against a stale index
(1 stored chunk vs 2 index rows). -/
theorem C1_counterexample :
    ((ingest readyR [chunkC] failEncode).1.chunks = [chunkC]) ∧
    ((ingest readyR [chunkC] failEncode).1.index = readyR.index) ∧
    ((ingest readyR [chunkC] failEncode).1.chunks ≠ readyR.chunks) ∧
    (((ingest readyR [chunkC] failEncode).1.index.map
        (fun i => i.vectors.length)).getD 0 ≠
      (ingest readyR [chunkC] failEncode).1.chunks.length) := by
  decide

/-- Claim C1 as amended: when embedding the new chunk texts fails, the
prior index and embeddings are left in place (the index build never runs)
and the ingest reports failure, but the stored chunk list has already been
replaced by the new chunks — so the chunk list and the surviving index may
be misaligned after a failed re-ingest. -/
theorem C1_failed_ingest (r : Retriever) (chunks : List ChunkRec)
    (encode : List PyStr → Option (List Vec))
    (hfail : (create_embeddings r chunks encode).2 = none) :
    (ingest r chunks encode).1.index = r.index ∧
    (ingest r chunks encode).1.embeddings = r.embeddings ∧
    (ingest r chunks encode).1.chunks = chunks ∧
    (ingest r chunks encode).2 = false := by
  have h1 := create_embeddings_fail r chunks encode hfail
  have hsplit : create_embeddings r chunks encode =
      ((create_embeddings r chunks encode).1, none) := by
    rw [← hfail]
  have hred : ingest r chunks encode =
      ((create_embeddings r chunks encode).1, false) := by
    unfold ingest
    rw [hsplit]
  rw [hred, h1.1]
  exact ⟨rfl, rfl, rfl, rfl⟩

/-- Concrete instance of `C1_failed_ingest` at the Ready retriever. -/
theorem C1_failed_ingest_witness :
    (ingest readyR [chunkC] failEncode).1.index = readyR.index ∧
    (ingest readyR [chunkC] failEncode).1.embeddings = readyR.embeddings ∧
    (ingest readyR [chunkC] failEncode).1.chunks = [chunkC] ∧
    (ingest readyR [chunkC] failEncode).2 = false :=
  C1_failed_ingest readyR [chunkC] failEncode (by decide)

/-- Claim C7, as stated, is false of the code: building over zero vectors
does not replace the existing index — the call is an early return, the old
one-vector index of `rIdx1` survives, and a search against it still
returns one result rather than zero. -/
theorem C7_counterexample :
    build_faiss_index rIdx1 (some []) = rIdx1 ∧
    rIdx1.index = some { vectors := [[1]] } ∧
    ((build_faiss_index rIdx1 (some [])).index.getD
        { vectors := [] }).search [0] 5 ≠ [] := by
  decide

/-- Claim C7 as amended: for one or more vectors, `build_faiss_index`
replaces any existing index with one over exactly these vectors with row
order preserved and touches nothing else; building over zero vectors (or
over `None` with no stored embeddings) is a logged no-op that leaves the
whole retriever — in particular any existing index — unchanged. -/
theorem C7_build_replaces (r : Retriever) (embs : List Vec)
    (h : embs ≠ []) :
    (build_faiss_index r (some embs)).index =
      some { vectors := embs } ∧
    (build_faiss_index r (some embs)).chunks = r.chunks ∧
    (build_faiss_index r (some embs)).embeddings = r.embeddings ∧
    build_faiss_index r (some []) = r ∧
    (r.embeddings = none → build_faiss_index r none = r) := by
  have hlen : ¬ embs.length = 0 := by
    simpa [List.length_eq_zero] using h
  refine ⟨?_, ?_, ?_, rfl, ?_⟩
  · unfold build_faiss_index
    show (if embs.length = 0 then r
      else { r with index := some { vectors := embs } }).index = _
    rw [if_neg hlen]
  · unfold build_faiss_index
    show (if embs.length = 0 then r
      else { r with index := some { vectors := embs } }).chunks = _
    rw [if_neg hlen]
  · unfold build_faiss_index
    show (if embs.length = 0 then r
      else { r with index := some { vectors := embs } }).embeddings = _
    rw [if_neg hlen]
  · intro hemb
    unfold build_faiss_index
    show (match r.embeddings with
      | none => r
      | some embs =>
        if embs.length = 0 then r
        else { r with index := some { vectors := embs } }) = r
    rw [hemb]

/-- Concrete instance of `C7_build_replaces`: a one-vector rebuild swaps
the index of `rIdx1`, and the degenerate builds leave it unchanged. -/
theorem C7_build_replaces_witness :
    (build_faiss_index rIdx1 (some [[2]])).index =
      some { vectors := [[2]] } ∧
    (build_faiss_index rIdx1 (some [[2]])).chunks = rIdx1.chunks ∧
    (build_faiss_index rIdx1 (some [[2]])).embeddings =
      rIdx1.embeddings ∧
    build_faiss_index rIdx1 (some []) = rIdx1 ∧
    (rIdx1.embeddings = none → build_faiss_index rIdx1 none = rIdx1) :=
  C7_build_replaces rIdx1 [[2]] (by decide)

lemma distPairs_length (q : Vec) :
    ∀ (vs : List Vec) (i : Nat), (distPairs q i vs).length = vs.length := by
  intro vs
  induction vs with
  | nil => intro i; rfl
  | cons v t ih => intro i; simp [distPairs, ih (i + 1)]

lemma distPairs_snd_lt (q : Vec) :
    ∀ (vs : List Vec) (i : Nat) (p : ℤ × Nat),
      p ∈ distPairs q i vs → p.2 < i + vs.length := by
  intro vs
  induction vs with
  | nil => intro i p hp; cases hp
  | cons v t ih =>
    intro i p hp
    rcases List.mem_cons.mp hp with h | h
    · subst h
      simp only [List.length_cons]
      omega
    · have := ih (i + 1) p h
      simp only [List.length_cons]
      omega

lemma buildResults_length (chunks : List ChunkRec) :
    ∀ (l : List (ℤ × Nat)) (i : Nat),
      (∀ p ∈ l, p.2 < chunks.length) →
      (buildResults chunks i l).length = l.length := by
  intro l
  induction l with
  | nil => intro i h; rfl
  | cons p rest ih =>
    intro i h
    obtain ⟨d, j⟩ := p
    have hj : j < chunks.length := h (d, j) (List.mem_cons_self _ _)
    simp only [buildResults, List.getElem?_eq_getElem hj, List.length_cons]
    rw [ih (i + 1) (fun p hp => h p (List.mem_cons_of_mem _ hp))]

lemma buildResults_ranks (chunks : List ChunkRec) :
    ∀ (l : List (ℤ × Nat)) (i : Nat),
      (∀ p ∈ l, p.2 < chunks.length) →
      (buildResults chunks i l).map (fun c => c.rank) =
        (List.range' (i + 1) l.length).map some := by
  intro l
  induction l with
  | nil => intro i h; rfl
  | cons p rest ih =>
    intro i h
    obtain ⟨d, j⟩ := p
    have hj : j < chunks.length := h (d, j) (List.mem_cons_self _ _)
    simp only [buildResults, List.getElem?_eq_getElem hj, List.map_cons,
      List.length_cons, List.range'_succ]
    rw [ih (i + 1) (fun p hp => h p (List.mem_cons_of_mem _ hp))]

lemma buildResults_score_mem (chunks : List ChunkRec) :
    ∀ (l : List (ℤ × Nat)) (i : Nat) (c : ChunkRec),
      c ∈ buildResults chunks i l →
      ∃ p ∈ l, c.similarity_score = some p.1 := by
  intro l
  induction l with
  | nil => intro i c hc; cases hc
  | cons p rest ih =>
    intro i c hc
    obtain ⟨d, j⟩ := p
    cases hg : chunks[j]? with
    | none =>
      simp only [buildResults, hg] at hc
      obtain ⟨q, hq, hs⟩ := ih (i + 1) c hc
      exact ⟨q, List.mem_cons_of_mem _ hq, hs⟩
    | some c0 =>
      simp only [buildResults, hg] at hc
      rcases List.mem_cons.mp hc with h | h
      · subst h
        exact ⟨(d, j), List.mem_cons_self _ _, rfl⟩
      · obtain ⟨q, hq, hs⟩ := ih (i + 1) c h
        exact ⟨q, List.mem_cons_of_mem _ hq, hs⟩

lemma buildResults_sorted (chunks : List ChunkRec) :
    ∀ (l : List (ℤ × Nat)) (i : Nat), List.Pairwise pairLe l →
      List.Pairwise (fun a b : ChunkRec =>
        a.similarity_score.getD 0 ≤ b.similarity_score.getD 0)
        (buildResults chunks i l) := by
  intro l
  induction l with
  | nil => intro i h; exact List.Pairwise.nil
  | cons p rest ih =>
    intro i h
    obtain ⟨d, j⟩ := p
    obtain ⟨hhead, htail⟩ := List.pairwise_cons.mp h
    cases hg : chunks[j]? with
    | none =>
      simp only [buildResults, hg]
      exact ih (i + 1) htail
    | some c0 =>
      simp only [buildResults, hg]
      refine List.pairwise_cons.mpr ⟨?_, ih (i + 1) htail⟩
      intro b hb
      obtain ⟨q, hq, hbs⟩ := buildResults_score_mem chunks rest (i + 1) b hb
      have hd : pairLe (d, j) q := hhead q hq
      rw [hbs]
      simpa [pairLe] using hd

lemma buildResults_base (chunks : List ChunkRec) :
    ∀ (l : List (ℤ × Nat)) (i : Nat) (c : ChunkRec),
      c ∈ buildResults chunks i l →
      ∃ c0 ∈ chunks,
        c.filename = c0.filename ∧ c.chunk_index = c0.chunk_index ∧
        c.text = c0.text ∧ c.file_index = c0.file_index ∧
        c.original_text_length = c0.original_text_length ∧
        c.similarity_score.isSome = true ∧ c.rank.isSome = true := by
  intro l
  induction l with
  | nil => intro i c hc; cases hc
  | cons p rest ih =>
    intro i c hc
    obtain ⟨d, j⟩ := p
    cases hg : chunks[j]? with
    | none =>
      simp only [buildResults, hg] at hc
      exact ih (i + 1) c hc
    | some c0 =>
      simp only [buildResults, hg] at hc
      rcases List.mem_cons.mp hc with h | h
      · subst h
        exact ⟨c0, List.getElem?_mem hg, rfl, rfl, rfl, rfl, rfl, rfl, rfl⟩
      · exact ih (i + 1) c h

/-- In the Ready state with a non-whitespace query and a successful query
embedding, `retrieve_relevant_chunks` returns the annotated results built
from the search over `min top_k chunk_count` neighbours, and leaves the
state unchanged. -/
lemma retrieve_ready (r : Retriever) (idx : FaissIndex)
    (encode : PyStr → Option Vec) (query : PyStr) (qv : Vec) (k : Nat)
    (hidx : r.index = some idx) (hne : r.chunks ≠ [])
    (hq : ¬ pyStrip query = []) (henc : encode query = some qv) :
    retrieve_relevant_chunks r encode query k =
      (r, buildResults r.chunks 0
        (idx.search qv (min k r.chunks.length))) := by
  unfold retrieve_relevant_chunks
  have hcond : ¬ (r.index = none ∨ r.chunks.length = 0) := by
    rw [hidx]
    simp [List.length_eq_zero, hne]
  rw [if_neg hq, if_neg hcond, hidx, henc]

/-- `retrieve_relevant_chunks` never changes the retriever state. -/
lemma retrieve_state_id (r : Retriever) (encode : PyStr → Option Vec)
    (query : PyStr) (k : Nat) :
    (retrieve_relevant_chunks r encode query k).1 = r := by
  unfold retrieve_relevant_chunks
  by_cases h1 : pyStrip query = []
  · rw [if_pos h1]
  · rw [if_neg h1]
    by_cases h2 : r.index = none ∨ r.chunks.length = 0
    · rw [if_pos h2]
    · rw [if_neg h2]
      cases hidx : r.index with
      | none => rfl
      | some idx =>
        cases he : encode query with
        | none => rfl
        | some qv => rfl

lemma retrieve_foldl_id (encode : PyStr → Option Vec) (k : Nat) :
    ∀ (qs : List PyStr) (r : Retriever),
      qs.foldl (fun s q => (retrieve_relevant_chunks s encode q k).1) r
        = r := by
  intro qs
  induction qs with
  | nil => intro r; rfl
  | cons q rest ih =>
    intro r
    show rest.foldl _ ((retrieve_relevant_chunks r encode q k).1) = r
    rw [retrieve_state_id]
    exact ih r

/-- Claim C6: a non-whitespace query against a Ready retriever with `N`
aligned chunks returns exactly `min k N` results, whose ranks are the
1-based positions `1, 2, ...` in order and whose similarity scores are
non-decreasing (ascending L2 distance). -/
theorem C6_ready_query (r : Retriever) (idx : FaissIndex)
    (encode : PyStr → Option Vec) (query : PyStr) (qv : Vec) (k : Nat)
    (hidx : r.index = some idx)
    (halign : idx.vectors.length = r.chunks.length)
    (hne : r.chunks ≠ [])
    (hq : ¬ pyStrip query = [])
    (henc : encode query = some qv) :
    ((retrieve_relevant_chunks r encode query k).2).length =
      min k r.chunks.length ∧
    ((retrieve_relevant_chunks r encode query k).2).map (fun c => c.rank) =
      (List.range' 1 (min k r.chunks.length)).map some ∧
    List.Pairwise (fun a b : ChunkRec =>
      a.similarity_score.getD 0 ≤ b.similarity_score.getD 0)
      ((retrieve_relevant_chunks r encode query k).2) := by
  rw [retrieve_ready r idx encode query qv k hidx hne hq henc]
  have hall : ∀ p ∈ idx.search qv (min k r.chunks.length),
      p.2 < r.chunks.length := by
    intro p hp
    unfold FaissIndex.search at hp
    have hp1 : p ∈ List.insertionSort pairLe (distPairs qv 0 idx.vectors) :=
      List.mem_of_mem_take hp
    have hp2 : p ∈ distPairs qv 0 idx.vectors :=
      (List.mem_insertionSort pairLe).mp hp1
    have := distPairs_snd_lt qv idx.vectors 0 p hp2
    omega
  have hlen : (idx.search qv (min k r.chunks.length)).length =
      min k r.chunks.length := by
    unfold FaissIndex.search
    rw [List.length_take, List.length_insertionSort, distPairs_length,
      halign]
    omega
  have hsorted : List.Pairwise pairLe
      (idx.search qv (min k r.chunks.length)) := by
    unfold FaissIndex.search
    exact (List.sorted_insertionSort pairLe _).sublist
      (List.take_sublist _ _)
  refine ⟨?_, ?_, ?_⟩
  · show (buildResults r.chunks 0
      (idx.search qv (min k r.chunks.length))).length = _
    rw [buildResults_length r.chunks _ 0 hall, hlen]
  · show (buildResults r.chunks 0
      (idx.search qv (min k r.chunks.length))).map (fun c => c.rank) = _
    rw [buildResults_ranks r.chunks _ 0 hall, hlen]
  · exact buildResults_sorted r.chunks _ 0 hsorted

/-- Concrete instance of `C6_ready_query`: `top_k = 5` against the 2-chunk
Ready retriever yields `min 5 2 = 2` results, ranks `[1, 2]`, scores
ascending. -/
theorem C6_ready_query_witness :
    ((retrieve_relevant_chunks readyR encodeHi ("hi".data) 5).2).length =
      min 5 readyR.chunks.length ∧
    ((retrieve_relevant_chunks readyR encodeHi ("hi".data) 5).2).map
      (fun c => c.rank) =
      (List.range' 1 (min 5 readyR.chunks.length)).map some ∧
    List.Pairwise (fun a b : ChunkRec =>
      a.similarity_score.getD 0 ≤ b.similarity_score.getD 0)
      ((retrieve_relevant_chunks readyR encodeHi ("hi".data) 5).2) :=
  C6_ready_query readyR { vectors := [[1], [2]] } encodeHi ("hi".data)
    [0] 5 rfl (by decide) (by decide) (by decide) (by decide)

/-- Claim C8: an empty or whitespace-only query yields `[]` for every
possible embedding function (the model is never invoked — the result does
not depend on it), and a retriever with no index or no chunks yields `[]`
for every query, never an error. -/
theorem C8_empty_cases (r : Retriever) (encode : PyStr → Option Vec)
    (query : PyStr) (k : Nat) :
    (pyStrip query = [] →
      ∀ e2 : PyStr → Option Vec,
        retrieve_relevant_chunks r e2 query k = (r, [])) ∧
    ((r.index = none ∨ r.chunks = []) →
      retrieve_relevant_chunks r encode query k = (r, [])) := by
  constructor
  · intro h e2
    unfold retrieve_relevant_chunks
    rw [if_pos h]
  · intro h
    unfold retrieve_relevant_chunks
    by_cases hq : pyStrip query = []
    · rw [if_pos hq]
    · have hc : r.index = none ∨ r.chunks.length = 0 := by
        rcases h with h | h
        · exact Or.inl h
        · right
          rw [h]
          rfl
      rw [if_neg hq, if_pos hc]

/-- Concrete instance of `C8_empty_cases`: a whitespace query against the
Ready retriever and a real query against the Empty retriever both return
the empty list. -/
theorem C8_empty_cases_witness :
    retrieve_relevant_chunks readyR encodeHi ("  ".data) 3 =
      (readyR, []) ∧
    retrieve_relevant_chunks emptyRetriever encodeHi ("hi".data) 3 =
      (emptyRetriever, []) :=
  ⟨(C8_empty_cases readyR encodeHi ("  ".data) 3).1 (by decide) encodeHi,
   (C8_empty_cases emptyRetriever encodeHi ("hi".data) 3).2 (Or.inl rfl)⟩

/-- Claim C9: querying mutates nothing — the retriever state (in
particular its stored chunk list) is unchanged by one query and by any
sequence of queries — and every returned result is a fresh copy: it agrees
with some stored chunk on every ingested field and only adds
`similarity_score` and `rank`. -/
theorem C9_results_fresh (r : Retriever) (encode : PyStr → Option Vec)
    (query : PyStr) (k : Nat) :
    (retrieve_relevant_chunks r encode query k).1 = r ∧
    (∀ qs : List PyStr,
      qs.foldl (fun s q => (retrieve_relevant_chunks s encode q k).1) r
        = r) ∧
    (∀ c ∈ (retrieve_relevant_chunks r encode query k).2,
      ∃ c0 ∈ r.chunks,
        c.filename = c0.filename ∧ c.chunk_index = c0.chunk_index ∧
        c.text = c0.text ∧ c.file_index = c0.file_index ∧
        c.original_text_length = c0.original_text_length ∧
        c.similarity_score.isSome = true ∧ c.rank.isSome = true) := by
  refine ⟨retrieve_state_id r encode query k,
    fun qs => retrieve_foldl_id encode k qs r, ?_⟩
  intro c hc
  unfold retrieve_relevant_chunks at hc
  by_cases h1 : pyStrip query = []
  · rw [if_pos h1] at hc
    cases hc
  · rw [if_neg h1] at hc
    by_cases h2 : r.index = none ∨ r.chunks.length = 0
    · rw [if_pos h2] at hc
      cases hc
    · rw [if_neg h2] at hc
      cases hidx : r.index with
      | none =>
        rw [hidx] at hc
        cases hc
      | some idx =>
        rw [hidx] at hc
        cases he : encode query with
        | none =>
          rw [he] at hc
          cases hc
        | some qv =>
          rw [he] at hc
          exact buildResults_base r.chunks _ 0 c hc

/-- Concrete instance of `C9_results_fresh` at the Ready retriever: the
state survives a query and a two-query sequence, and the concrete result
`resHi` is a fresh copy of a stored chunk. -/
theorem C9_results_fresh_witness :
    (retrieve_relevant_chunks readyR encodeHi ("hi".data) 1).1 = readyR ∧
    (["q1".data, "q2".data].foldl
      (fun s q => (retrieve_relevant_chunks s encodeHi q 1).1) readyR
      = readyR) ∧
    ∃ c0 ∈ readyR.chunks,
      resHi.filename = c0.filename ∧ resHi.chunk_index = c0.chunk_index ∧
      resHi.text = c0.text ∧ resHi.file_index = c0.file_index ∧
      resHi.original_text_length = c0.original_text_length ∧
      resHi.similarity_score.isSome = true ∧ resHi.rank.isSome = true :=
  ⟨(C9_results_fresh readyR encodeHi ("hi".data) 1).1,
   (C9_results_fresh readyR encodeHi ("hi".data) 1).2.1 _,
   (C9_results_fresh readyR encodeHi ("hi".data) 1).2.2 resHi (by decide)⟩

lemma get_map_at {α β : Type} (f : α → β) :
    ∀ (l : List α) (j : Nat) (hj : j < l.length)
      (hj2 : j < (l.map f).length),
      (l.map f).get ⟨j, hj2⟩ = f (l.get ⟨j, hj⟩) := by
  intro l
  induction l with
  | nil => intro j hj hj2; simp at hj
  | cons a t ih =>
    intro j hj hj2
    cases j with
    | zero => rfl
    | succ n => exact ih n (by simpa using hj) (by simpa using hj2)

/-- Claim C10: `get_chunk_sources` returns one source entry per input
record without raising, substituting `"Unknown"`, `"Section 1"` and `""`
when the `filename`, `chunk_index` or `text` key is missing; the preview is
the full text when it has at most 200 characters and the first 200
characters followed by `"..."` otherwise. -/
theorem C10_chunk_sources (chunks : List ChunkRec) :
    (get_chunk_sources chunks).length = chunks.length ∧
    ∀ (j : Nat) (hj : j < chunks.length)
      (hj2 : j < (get_chunk_sources chunks).length),
      ((chunks.get ⟨j, hj⟩).filename = none →
        ((get_chunk_sources chunks).get ⟨j, hj2⟩).filename =
          "Unknown".data) ∧
      ((chunks.get ⟨j, hj⟩).chunk_index = none →
        ((get_chunk_sources chunks).get ⟨j, hj2⟩).«section» =
          "Section 1".data) ∧
      ((chunks.get ⟨j, hj⟩).text = none →
        ((get_chunk_sources chunks).get ⟨j, hj2⟩).preview = []) ∧
      (∀ t, (chunks.get ⟨j, hj⟩).text = some t →
        (t.length ≤ 200 →
          ((get_chunk_sources chunks).get ⟨j, hj2⟩).preview = t) ∧
        (200 < t.length →
          ((get_chunk_sources chunks).get ⟨j, hj2⟩).preview =
            t.take 200 ++ "...".data)) := by
  constructor
  · unfold get_chunk_sources
    rw [List.length_map]
  · intro j hj hj2
    unfold get_chunk_sources at hj2 ⊢
    rw [get_map_at _ chunks j hj hj2]
    simp only [List.get_eq_getElem]
    refine ⟨?_, ?_, ?_, ?_⟩
    · intro h
      simp [h]
    · intro h
      simp only [h, Option.getD_none]
      decide
    · intro h
      simp [h]
    · intro t ht
      constructor
      · intro hle
        simp only [ht, Option.getD_some]
        rw [if_neg (by omega)]
      · intro hlt
        simp only [ht, Option.getD_some]
        rw [if_pos hlt]

set_option maxRecDepth 4000 in
/-- Concrete instance of `C10_chunk_sources` on a record with every key
missing and a record with a 201-character text. -/
theorem C10_chunk_sources_witness :
    (get_chunk_sources [noKeysRec, longRec]).length = 2 ∧
    ((get_chunk_sources [noKeysRec, longRec]).get
      ⟨0, by decide⟩).filename = "Unknown".data ∧
    ((get_chunk_sources [noKeysRec, longRec]).get
      ⟨0, by decide⟩).«section» = "Section 1".data ∧
    ((get_chunk_sources [noKeysRec, longRec]).get
      ⟨0, by decide⟩).preview = [] ∧
    ((get_chunk_sources [noKeysRec, longRec]).get
      ⟨1, by decide⟩).preview = longText.take 200 ++ "...".data :=
  ⟨(C10_chunk_sources [noKeysRec, longRec]).1,
   ((C10_chunk_sources [noKeysRec, longRec]).2 0 (by decide)
      (by decide)).1 rfl,
   ((C10_chunk_sources [noKeysRec, longRec]).2 0 (by decide)
      (by decide)).2.1 rfl,
   ((C10_chunk_sources [noKeysRec, longRec]).2 0 (by decide)
      (by decide)).2.2.1 rfl,
   (((C10_chunk_sources [noKeysRec, longRec]).2 1 (by decide)
      (by decide)).2.2.2 longText rfl).2 (by decide)⟩

/-- Concrete instance of `C4_chunk_text_diverges` at fuel 100: one hundred
iterations still have not finished the loop. -/
theorem C4_chunk_text_diverges_witness :
    chunk_text sevenWords 3 3 100 = none :=
  C4_chunk_text_diverges 100
